import Mathlib

/-!
A verification development for the comparison/audit core of the
gsheet-compare-sync repository (src/logic.py and the dimming transform of
src/ui.py), shallowly embedded in Lean.

Modelling conventions:
* Python floats are modelled as exact rationals (`ℚ`); parsing of the
  special values inf/infinity/nan is outside the model (`pyFloat?` returns
  `none` for them).
* A cell value fetched from a table is one of None, a string, or an int
  (`Value`); a normalized cell is a string or a number (`NormValue`).
* Python dicts keyed by strings are modelled as association lists in
  insertion order with in-place replacement on duplicate assignment.
* A background color is a record of three rational channels; an absent
  color (missing cell data, missing effectiveFormat or backgroundColor)
  is `none : Option Color`.
-/

/-- Raw cell values flowing into the comparison core. -/
inductive Value where
  | vNone : Value
  | vStr : String → Value
  | vInt : ℤ → Value
deriving DecidableEq, Repr

/-- Normalized cell values: either a string or a number. -/
inductive NormValue where
  | nvStr : String → NormValue
  | nvNum : ℚ → NormValue
deriving DecidableEq, Repr

/-- Whether a normalized value is a number. -/
def NormValue.isNum : NormValue → Bool
  | .nvStr _ => false
  | .nvNum _ => true

/-- Python str() of a raw value (str(None) is the string "None"). -/
def pyStr : Value → String
  | .vNone => "None"
  | .vStr s => s
  | .vInt n => toString n

/-- Python str.strip(): drop leading and trailing whitespace. -/
def pyStrip (s : String) : String :=
  ⟨((s.data.dropWhile Char.isWhitespace).reverse.dropWhile Char.isWhitespace).reverse⟩

/-- All characters of a string satisfy a predicate. -/
def strAll (p : Char → Bool) (s : String) : Bool := s.data.all p

/-- Delete every occurrence of a character (str.replace(c, "")). -/
def removeChar (c : Char) (s : String) : String := ⟨s.data.filter (fun x => x ≠ c)⟩

/-- Replace every occurrence of a character by another (str.replace(a, b)). -/
def replaceChar (a b : Char) (s : String) : String :=
  ⟨s.data.map (fun x => if x = a then b else x)⟩

/-- str.rfind of a character: index of the rightmost occurrence, -1 if absent. -/
def rfindChar (s : String) (c : Char) : ℤ :=
  s.data.enum.foldl (fun acc p => if p.2 = c then (p.1 : ℤ) else acc) (-1)

/-- The regex `[€$£]\s*` substitution of logic.py: each currency symbol and
the whitespace run immediately following it is deleted (the Boolean state
records being inside such a whitespace run). -/
def moneyStrip (s : String) : String := ⟨moneyStripAux false s.data⟩
where
  moneyStripAux : Bool → List Char → List Char
    | _, [] => []
    | inRun, c :: rest =>
        if inRun ∧ c.isWhitespace then moneyStripAux true rest
        else if c = '€' ∨ c = '$' ∨ c = '£' then moneyStripAux true rest
        else c :: moneyStripAux false rest

/-- The regex `^[\d\.,]+$` of logic.py: nonempty, only digits, dots, commas. -/
def onlyDigitsCommaDot (s : String) : Bool :=
  s.length > 0 && strAll (fun c => c.isDigit || c = '.' || c = ',') s

/-- Numeric value of a list of decimal digit characters. -/
def natOfDigits (l : List Char) : ℕ :=
  l.foldl (fun n c => 10 * n + (c.toNat - 48)) 0

/-- A maximal run of digits and underscores, and the rest of the input. -/
def takeDigitRun (cs : List Char) : List Char × List Char :=
  cs.span (fun c => c.isDigit || c = '_')

/-- PEP 515 validity of a digit group: underscores only between digits. -/
def validDigitGroup : List Char → Bool
  | [] => true
  | c :: rest => c.isDigit && validDigitGroupAux rest
where
  validDigitGroupAux : List Char → Bool
    | [] => true
    | '_' :: [] => false
    | '_' :: c :: rest => c.isDigit && validDigitGroupAux rest
    | c :: rest => c.isDigit && validDigitGroupAux rest

/-- The digits of a digit group, with underscores removed. -/
def groupDigits (l : List Char) : List Char := l.filter Char.isDigit

/-- Exponent suffix of a Python float literal applied to a mantissa. -/
def pyFloatExp (m : ℚ) : List Char → Option ℚ
  | [] => some m
  | c :: rest =>
      if c = 'e' ∨ c = 'E' then
        match rest with
        | '+' :: r => pyFloatExpDigits m 1 r
        | '-' :: r => pyFloatExpDigits m (-1) r
        | r => pyFloatExpDigits m 1 r
      else none
where
  pyFloatExpDigits (m : ℚ) (sgn : ℤ) (r : List Char) : Option ℚ :=
    let (g, rest') := takeDigitRun r
    if rest' = [] ∧ g ≠ [] ∧ validDigitGroup g then
      some (m * (10 : ℚ) ^ (sgn * (natOfDigits (groupDigits g) : ℤ)))
    else none

/-- Body of a Python float literal after the optional sign: integer part,
optional fraction, optional exponent. -/
def pyFloatBody (cs : List Char) : Option ℚ :=
  let (ip, rest1) := takeDigitRun cs
  if validDigitGroup ip then
    match rest1 with
    | '.' :: rest2 =>
        let (fp, rest3) := takeDigitRun rest2
        if validDigitGroup fp then
          let di := groupDigits ip
          let df := groupDigits fp
          if di = [] ∧ df = [] then none
          else
            pyFloatExp ((natOfDigits (di ++ df) : ℚ) / (10 : ℚ) ^ df.length) rest3
        else none
    | _ =>
        if groupDigits ip = [] then none
        else pyFloatExp (natOfDigits (groupDigits ip) : ℚ) rest1
  else none

/-- Python float() on a string, restricted to finite decimal forms
(inf/infinity/nan are outside the model and yield none). -/
def pyFloat? (s : String) : Option ℚ :=
  match (pyStrip s).data with
  | '+' :: rest => pyFloatBody rest
  | '-' :: rest => (pyFloatBody rest).map (fun q => -q)
  | cs => pyFloatBody cs

/-- Python round() to an integer: round half to even. -/
def roundHalfEven (q : ℚ) : ℤ :=
  let f := ⌊q⌋
  let r := q - f
  if r < 1/2 then f
  else if 1/2 < r then f + 1
  else if 2 ∣ f then f else f + 1

/-- round(x, 10) of logic.py, over exact rationals. -/
def pyRound10 (q : ℚ) : ℚ := (roundHalfEven (q * 10 ^ 10) : ℚ) / 10 ^ 10

/-- Decimal/thousands separator resolution of _to_number_if_possible:
the rightmost of comma/dot is the decimal separator; the other is stripped;
a lone comma becomes a dot. -/
def sepResolve (s : String) : String :=
  let lc := rfindChar s ','
  let ld := rfindChar s '.'
  if lc > -1 ∧ ld > -1 then
    (if lc > ld then replaceChar ',' '.' (removeChar '.' s) else removeChar ',' s)
  else if lc > -1 then replaceChar ',' '.' s
  else s

/-- _to_number_if_possible of logic.py, observed through normalize_cell:
some q when a float is produced, none otherwise (the None, empty-string and
return-original outcomes are all non-floats). -/
def toNumber? : Value → Option ℚ
  | .vNone => none
  | .vInt n => some (n : ℚ)
  | .vStr s =>
      let t := pyStrip s
      if t = "" then none
      else
        let u := pyStrip (moneyStrip t)
        if onlyDigitsCommaDot u then pyFloat? (sepResolve u)
        else pyFloat? u

/-- Split a character list at every occurrence of a separator character. -/
def splitOnChar (sep : Char) : List Char → List (List Char)
  | [] => [[]]
  | c :: rest =>
      let r := splitOnChar sep rest
      if c = sep then [] :: r
      else
        match r with
        | [] => [[c]]
        | g :: gs => (c :: g) :: gs

/-- strptime %Y: exactly four digits, year at least 1 (datetime.MINYEAR). -/
def parseYear (l : List Char) : Option ℕ :=
  if l.length = 4 ∧ l.all Char.isDigit ∧ 1 ≤ natOfDigits l then some (natOfDigits l) else none

/-- strptime %m: one or two digits, month 1..12. -/
def parseMonth (l : List Char) : Option ℕ :=
  if 1 ≤ l.length ∧ l.length ≤ 2 ∧ l.all Char.isDigit
      ∧ 1 ≤ natOfDigits l ∧ natOfDigits l ≤ 12 then
    some (natOfDigits l)
  else none

/-- strptime %d: one or two digits, day 1..31 (calendar check done later). -/
def parseDayField (l : List Char) : Option ℕ :=
  if 1 ≤ l.length ∧ l.length ≤ 2 ∧ l.all Char.isDigit
      ∧ 1 ≤ natOfDigits l ∧ natOfDigits l ≤ 31 then
    some (natOfDigits l)
  else none

/-- Gregorian leap year. -/
def isLeapYear (y : ℕ) : Bool := y % 4 = 0 && (y % 100 ≠ 0 || y % 400 = 0)

/-- Days in a month of a year. -/
def daysInMonth (y m : ℕ) : ℕ :=
  if m = 2 then (if isLeapYear y then 29 else 28)
  else if m = 4 ∨ m = 6 ∨ m = 9 ∨ m = 11 then 30
  else 31

/-- A calendar date (year, month, day). -/
structure PyDate where
  year : ℕ
  month : ℕ
  day : ℕ
deriving DecidableEq, Repr

/-- The datetime.date constructor check: the day must fit the month. -/
def mkDate? (y m d : ℕ) : Option PyDate :=
  if d ≤ daysInMonth y m then some ⟨y, m, d⟩ else none

/-- Field order of a three-part date pattern. -/
inductive FieldOrder where
  | ymd | dmy | mdy
deriving DecidableEq, Repr

/-- strptime against one three-field pattern with a literal separator. -/
def parseDatePattern (order : FieldOrder) (sep : Char) (s : String) : Option PyDate :=
  match splitOnChar sep s.data with
  | [a, b, c] =>
      match order with
      | .ymd => do
          let y ← parseYear a
          let m ← parseMonth b
          let d ← parseDayField c
          mkDate? y m d
      | .dmy => do
          let d ← parseDayField a
          let m ← parseMonth b
          let y ← parseYear c
          mkDate? y m d
      | .mdy => do
          let m ← parseMonth a
          let d ← parseDayField b
          let y ← parseYear c
          mkDate? y m d
  | _ => none

/-- The fixed, ordered pattern list of _to_date_iso_if_possible:
%Y-%m-%d, %d.%m.%Y, %m/%d/%Y, %d/%m/%Y, %Y/%m/%d. -/
def dateFormats : List (String → Option PyDate) :=
  [parseDatePattern .ymd '-', parseDatePattern .dmy '.', parseDatePattern .mdy '/',
   parseDatePattern .dmy '/', parseDatePattern .ymd '/']

/-- First pattern that parses wins. -/
def firstParse : List (String → Option PyDate) → String → Option PyDate
  | [], _ => none
  | f :: fs, s =>
      match f s with
      | some d => some d
      | none => firstParse fs s

/-- Try the ordered date pattern list on a string. -/
def tryDateFormats (s : String) : Option PyDate := firstParse dateFormats s

/-- Left-pad a number with zeros to two digits. -/
def pad2 (n : ℕ) : String := if n < 10 then "0" ++ toString n else toString n

/-- Left-pad a number with zeros to four digits. -/
def pad4 (n : ℕ) : String :=
  if n < 10 then "000" ++ toString n
  else if n < 100 then "00" ++ toString n
  else if n < 1000 then "0" ++ toString n
  else toString n

/-- date.isoformat(): YYYY-MM-DD. -/
def toIso (d : PyDate) : String := pad4 d.year ++ "-" ++ pad2 d.month ++ "-" ++ pad2 d.day

/-- _to_date_iso_if_possible of logic.py, observed through normalize_cell:
some when the returned object differs from the input (a parsed ISO string,
or the empty string for whitespace-only input), none when the input is
returned unchanged. -/
def dateIso? : Value → Option String
  | .vNone => none
  | v =>
      let s := pyStrip (pyStr v)
      if s = "" then (if pyStr v = "" then none else some "")
      else (tryDateFormats s).map toIso

/-- normalize_cell of logic.py. -/
def normalize_cell : Value → NormValue
  | .vNone => .nvStr ""
  | v =>
      match dateIso? v with
      | some s => .nvStr s
      | none =>
          match toNumber? v with
          | some q => .nvNum (pyRound10 q)
          | none => .nvStr (pyStrip (pyStr v))

/-- a1_cell of logic.py: bijective base-26 column letters. -/
def colLetters : ℕ → String
  | 0 => ""
  | n + 1 => colLetters (n / 26) ++ String.singleton (Char.ofNat (65 + n % 26))
  decreasing_by exact Nat.lt_succ_of_le (Nat.div_le_self n 26)

/-- a1_cell of logic.py: 0-based row/col to A1 notation. -/
def a1_cell (row0 col0 : ℕ) : String := colLetters (col0 + 1) ++ toString (row0 + 1)

/-- An RGB background color; channels are rationals (floats in the source). -/
structure Color where
  red : ℚ
  green : ℚ
  blue : ℚ
deriving DecidableEq, Repr

/-- The WHITE constant of logic.py. -/
def WHITE : Color := ⟨1, 1, 1⟩

/-- Python int() on a rational: truncation toward zero. -/
def pyInt (q : ℚ) : ℤ := if 0 ≤ q then ⌊q⌋ else ⌈q⌉

/-- rgb_to_hsv of logic.py (hexagonal-cone formulas, hue in degrees). -/
def rgb_to_hsv (r g b : ℚ) : ℚ × ℚ × ℚ :=
  let max_c := max r (max g b)
  let min_c := min r (min g b)
  let diff := max_c - min_c
  let v := max_c
  let s := if 0 < max_c then diff / max_c else 0
  let h :=
    if 0 < diff then
      let h0 :=
        if max_c = r then (g - b) / diff
        else if max_c = g then 2 + (b - r) / diff
        else 4 + (r - g) / diff
      let h1 := h0 * 60
      if h1 < 0 then h1 + 360 else h1
    else 0
  (h, s, v)

/-- hsv_to_rgb of logic.py. -/
def hsv_to_rgb (h s v : ℚ) : ℚ × ℚ × ℚ :=
  if s = 0 then (v, v, v)
  else
    let h' := h / 60
    let i := pyInt h'
    let f := h' - i
    let p := v * (1 - s)
    let q := v * (1 - s * f)
    let t := v * (1 - s * (1 - f))
    if i = 0 then (v, t, p)
    else if i = 1 then (q, v, p)
    else if i = 2 then (p, v, t)
    else if i = 3 then (p, q, v)
    else if i = 4 then (t, p, v)
    else (v, p, q)

/-- is_white of logic.py: absent color, or all channels above 0.9. -/
def is_white : Option Color → Bool
  | none => true
  | some c => decide (c.red > 0.9) && decide (c.green > 0.9) && decide (c.blue > 0.9)

/-- get_color_tuple of logic.py: missing color defaults to white. -/
def get_color_tuple : Option Color → ℚ × ℚ × ℚ
  | none => (1, 1, 1)
  | some c => (c.red, c.green, c.blue)

/-- colors_match of logic.py (the source's default tolerance is 0.03). -/
def colors_match (c1 c2 : Option Color) (tolerance : ℚ) : Bool :=
  let w1 := is_white c1
  let w2 := is_white c2
  if w1 && w2 then true
  else if w1 ≠ w2 then false
  else
    let (r1, g1, b1) := get_color_tuple c1
    let (r2, g2, b2) := get_color_tuple c2
    decide (|r1 - r2| ≤ tolerance) && decide (|g1 - g2| ≤ tolerance)
      && decide (|b1 - b2| ≤ tolerance)

/-- A per-row snapshot of background colors: none when the rowData has no
values entry; a cell is none when no background color is recorded. -/
abbrev FormatRow := Option (List (Option Color))

/-- get_bg_color of logic.py. -/
def get_bg_color (row_data : FormatRow) (col_idx : ℕ) : Option Color :=
  match row_data with
  | none => none
  | some vals => (vals.getD col_idx none)

/-- The per-cell dimming transform of ui.py (_dim_colors, lines 639-649):
desaturate by DIM_BLEND_FACTOR, tier-adjust the value, clamp, snap to white
when the new saturation drops below 0.01. -/
def dim_color (c : Color) : Color :=
  let hsv := rgb_to_hsv c.red c.green c.blue
  let h := hsv.1
  let s := hsv.2.1
  let v := hsv.2.2
  let new_s := max 0 (s - 0.30)
  let new_v0 :=
    if s > 0.85 then v - 0.18
    else if s > 0.45 then v - 0.05
    else if s > 0.15 then v + 0.05
    else min 1 (v + (0.15 - new_s) * 1.8)
  let new_v := max 0 (min 1 new_v0)
  let rgb := hsv_to_rgb h new_s new_v
  if new_s < 0.01 then WHITE else ⟨rgb.1, rgb.2.1, rgb.2.2⟩

/-- Insert a string into a sorted list, after equal elements (stable). -/
def insertSorted (x : String) : List String → List String
  | [] => [x]
  | y :: ys => if x ≤ y then x :: y :: ys else y :: insertSorted x ys

/-- Python sorted() on a list of strings: stable ascending sort. -/
def pySorted (l : List String) : List String := l.foldr insertSorted []

/-- Keys of a Python dict in insertion order: first occurrences, in order. -/
def firstDedup : List String → List String
  | [] => []
  | x :: xs => x :: (firstDedup xs).filter (fun y => y ≠ x)

/-- Index of a header in a header-to-index dict comprehension
(`{h: i for i, h in enumerate(headers)}`): the last occurrence wins.
Only meaningful when the header occurs; defaults to 0. -/
def dictIdx (headers : List String) (h : String) : ℕ :=
  headers.enum.foldl (fun acc p => if p.2 = h then p.1 else acc) 0

/-- Lookup in an association list (first entry with the key). -/
def alookup {α : Type} (k : String) : List (String × α) → Option α
  | [] => none
  | p :: rest => if k = p.1 then some p.2 else alookup k rest

/-- Python dict assignment d[k] = v on an association list: replace in
place when the key exists, append otherwise. -/
def upsert {α : Type} (d : List (String × α)) (k : String) (v : α) : List (String × α) :=
  if d.any (fun p => p.1 = k) then
    d.map (fun p => if p.1 = k then (k, v) else p)
  else d ++ [(k, v)]

/-- The key of a row under a key column: the stripped str() of the cell,
none when the column is out of range or the stripped key is empty. -/
def rowKey (key_col : ℕ) (row : List Value) : Option String :=
  let kv := pyStrip (pyStr (row.getD key_col (Value.vStr "")))
  if kv = "" then none else some kv

/-- The indexing loop of index_rows: walk the rows, assigning
key → (1-based row number, row values); the 1-based number of row i is
i + 2 (header is row 1). -/
def indexAux (key_col : ℕ) : ℕ → List (String × ℕ × List Value) → List (List Value) →
    List (String × ℕ × List Value)
  | _, d, [] => d
  | i, d, row :: rest =>
      indexAux key_col (i + 1)
        (match rowKey key_col row with
         | some kv => upsert d kv (i + 2, row)
         | none => d) rest

/-- index_rows of compare_two_sheets (key_to_idx and key_to_vals fused into
one dict from key to (1-based row number, row values)). -/
def index_rows (rows : List (List Value)) (key_col : ℕ) : List (String × ℕ × List Value) :=
  indexAux key_col 0 [] rows

/-- One difference record: header, source value, target value, source and
target 1-based row numbers, source and target 0-based column indices. -/
structure DiffRec where
  header : String
  s_val : Value
  t_val : Value
  s_row : ℕ
  t_row : ℕ
  s_col : ℕ
  t_col : ℕ
deriving DecidableEq, Repr

/-- CompareResult of logic.py; the two dicts are association lists in
insertion order (which compare_two_sheets makes sorted-key order). -/
structure CompareResult where
  missing_rows_in_target : List String := []
  missing_rows_in_source : List String := []
  missing_columns_in_target : List String := []
  missing_columns_in_source : List String := []
  compared_headers : List String := []
  differences : List (String × List DiffRec) := []
  row_mapping : List (String × ℕ × ℕ) := []
deriving DecidableEq, Repr, Inhabited

/-- The per-key difference records of compare_two_sheets: for each compared
header, fetch both cells (short rows read as empty cells), normalize, and
record a difference when the normal forms differ. -/
def diffsForKey (s_h t_h : List String) (common_headers : List String)
    (srow trow : List Value) (srow_idx trow_idx : ℕ) : List DiffRec :=
  common_headers.filterMap (fun h =>
    let sc := dictIdx s_h h
    let tc := dictIdx t_h h
    let sv := srow.getD sc (Value.vStr "")
    let tv := trow.getD tc (Value.vStr "")
    if normalize_cell sv ≠ normalize_cell tv then
      some ⟨h, sv, tv, srow_idx, trow_idx, sc, tc⟩
    else none)

/-- Entry of an index dict for a key known to be present (default unused). -/
def entryOf (d : List (String × ℕ × List Value)) (k : String) : ℕ × List Value :=
  (alookup k d).getD (0, [])

/-- The successful body of compare_two_sheets. -/
def mkCompareResult (s_h : List String) (s_r : List (List Value))
    (t_h : List String) (t_r : List (List Value))
    (key_h : String) (included_h : List String) : CompareResult :=
  let included_set := included_h.map pyStrip
  let common_headers := (firstDedup s_h).filter
    (fun h => h ∈ t_h ∧ h ≠ key_h ∧ h ∈ included_set)
  let src_idx := index_rows s_r (dictIdx s_h key_h)
  let tgt_idx := index_rows t_r (dictIdx t_h key_h)
  let src_keys := src_idx.map Prod.fst
  let tgt_keys := tgt_idx.map Prod.fst
  let common_keys := pySorted (src_keys.filter (fun k => k ∈ tgt_keys))
  { missing_columns_in_target := pySorted ((firstDedup s_h).filter (fun h => h ∉ t_h))
    missing_columns_in_source := pySorted ((firstDedup t_h).filter (fun h => h ∉ s_h))
    compared_headers := pySorted common_headers
    missing_rows_in_target := pySorted (src_keys.filter (fun k => k ∉ tgt_keys))
    missing_rows_in_source := pySorted (tgt_keys.filter (fun k => k ∉ src_keys))
    row_mapping := common_keys.map (fun k =>
      (k, (entryOf src_idx k).1, (entryOf tgt_idx k).1))
    differences := common_keys.filterMap (fun k =>
      let se := entryOf src_idx k
      let te := entryOf tgt_idx k
      let ds := diffsForKey s_h t_h common_headers se.2 te.2 se.1 te.1
      if ds = [] then none else some (k, ds)) }

/-- compare_two_sheets of logic.py: raises ValueError when the key header
is missing from either header list, otherwise returns a full result. -/
def compare_two_sheets (s_h : List String) (s_r : List (List Value))
    (t_h : List String) (t_r : List (List Value))
    (key_h : String) (included_h : List String) : Except String CompareResult :=
  if key_h ∈ s_h then
    if key_h ∈ t_h then
      .ok (mkCompareResult s_h s_r t_h t_r key_h included_h)
    else .error ("Key header '" ++ key_h ++ "' not found in target.")
  else .error ("Key header '" ++ key_h ++ "' not found in source.")

/-- Whether an Except outcome is the error case. -/
def isErr {α : Type} : Except String α → Bool
  | .error _ => true
  | .ok _ => false

/-- The result of a successful comparison (empty placeholder on error). -/
def getRes (e : Except String CompareResult) : CompareResult :=
  match e with
  | .ok r => r
  | .error _ => {}

/-- The all-clear report of check_color_status. -/
def allClearLine : String := "Colors are perfectly synced with data differences."

/-- The column indices of the included headers present in the target
headers (`{tgt_hmap[h] for h in included_h if h in tgt_hmap}`). -/
def includedColIndices (t_h included_h : List String) : List ℕ :=
  (included_h.filter (fun h => h ∈ t_h)).map (dictIdx t_h)

/-- The non-white cell coordinates of a format snapshot that lie in an
included column: (1-based data row offset, 0-based column). -/
def coloredCells (current_formats : List FormatRow) (included_cols : List ℕ) :
    List (ℕ × ℕ) :=
  current_formats.enum.flatMap (fun rp =>
    match rp.2 with
    | none => []
    | some vals => vals.enum.filterMap (fun cp =>
        if cp.1 ∈ included_cols then
          if is_white cp.2 = false then some (rp.1 + 1, cp.1) else none
        else none))

/-- check_color_status of logic.py. The false-positive pass over colored
cells was removed in the source (only missing-color findings remain); the
colored-cell set is still computed and consulted. -/
def check_color_status (result : CompareResult) (current_formats : List FormatRow)
    (t_h : List String) (included_h : List String) : List String :=
  let colored := coloredCells current_formats (includedColIndices t_h included_h)
  let report := result.differences.flatMap (fun kd =>
    kd.2.filterMap (fun dr =>
      if ((dr.t_row - 1 : ℕ), dr.t_col) ∈ colored then none
      else some (mkMissingLine dr)))
  if report = [] then [allClearLine] else pySorted report
where
  mkMissingLine (dr : DiffRec) : String :=
    "[MISSING COLOR] Cell " ++ a1_cell (dr.t_row - 1) dr.t_col ++ " (Row "
      ++ toString dr.t_row ++ ", " ++ dr.header ++ "): Has difference but is WHITE."

/-- Python formatting f-string {x:.2f}: two decimals, rounding half to
even (the sign of a negative zero result is outside the model). -/
def fmt2 (q : ℚ) : String :=
  let n := roundHalfEven (q * 100)
  let a := n.natAbs
  (if n < 0 then "-" else "") ++ toString (a / 100) ++ "." ++ pad2 (a % 100)

/-- The mismatch description of compare_sheet_colors. -/
def mismatchDesc (s_color t_color : Option Color) : String :=
  if is_white s_color = true ∧ is_white t_color = false then
    "Source is White, Target is Colored"
  else if is_white s_color = false ∧ is_white t_color = true then
    "Source is Colored, Target is White"
  else
    let st := get_color_tuple s_color
    let tt := get_color_tuple t_color
    "RGB Mismatch: Src(" ++ fmt2 st.1 ++ "," ++ fmt2 st.2.1 ++ "," ++ fmt2 st.2.2
      ++ ") vs Tgt(" ++ fmt2 tt.1 ++ "," ++ fmt2 tt.2.1 ++ "," ++ fmt2 tt.2.2 ++ ")"

/-- Whether a 1-based row number has a snapshot row: its data offset
(row - 2, computed in ints) is within the format list. -/
def rowHasFormats (row : ℕ) (len : ℕ) : Bool :=
  decide (0 ≤ (row : ℤ) - 2) && decide ((row : ℤ) - 2 < (len : ℤ))

/-- The findings one row-pairing entry contributes to compare_sheet_colors:
out-of-snapshot rows contribute nothing, otherwise each included header
present on both sides is compared via colors_match. -/
def entryFindings (s_formats t_formats : List FormatRow)
    (s_h t_h included_h : List String) (e : String × ℕ × ℕ) : List String :=
  if rowHasFormats e.2.1 s_formats.length = false then []
  else if rowHasFormats e.2.2 t_formats.length = false then []
  else
    let t_row := e.2.2
    let s_row_data := s_formats.getD (e.2.1 - 2) none
    let t_row_data := t_formats.getD (e.2.2 - 2) none
    included_h.filterMap (fun h =>
      if h ∈ s_h ∧ h ∈ t_h then
        let s_col := dictIdx s_h h
        let t_col := dictIdx t_h h
        let s_color := get_bg_color s_row_data s_col
        let t_color := get_bg_color t_row_data t_col
        if colors_match s_color t_color 0.03 = false then
          some ("[COLOR DIFF] Cell " ++ a1_cell (t_row - 1) t_col ++ " (Row "
            ++ toString t_row ++ ", " ++ h ++ "): " ++ mismatchDesc s_color t_color)
        else none
      else none)

/-- compare_sheet_colors of logic.py. -/
def compare_sheet_colors (result : CompareResult)
    (s_formats t_formats : List FormatRow)
    (s_h t_h included_h : List String) : List String :=
  pySorted (result.row_mapping.flatMap
    (entryFindings s_formats t_formats s_h t_h included_h))

/-- Specification-side reading of last-wins indexing: the entry for a key
is the last row carrying that key, as (1-based row number, row values);
row i (0-based, counted from start) has 1-based number i + 2. -/
def lastKeyedRow (key_col : ℕ) : ℕ → List (List Value) → String → Option (ℕ × List Value)
  | _, [], _ => none
  | i, row :: rest, k =>
      match lastKeyedRow key_col (i + 1) rest k with
      | some e => some e
      | none => if rowKey key_col row = some k then some (i + 2, row) else none

/-- Specification-side dimming transform, written from the claim: reduce
saturation by 0.30; adjust value by the saturation tier of the input
(s > 0.85 darken 0.18; 0.45 < s ≤ 0.85 darken 0.05; 0.15 < s ≤ 0.45
lighten 0.05; s ≤ 0.15 lighten by (0.15 - new saturation) * 1.8 capped at
1); clamp value to [0,1]; snap to pure white when the resulting saturation
is below 0.01. -/
def dim_spec (c : Color) : Color :=
  let hsv := rgb_to_hsv c.red c.green c.blue
  let h := hsv.1
  let s := hsv.2.1
  let v := hsv.2.2
  let new_s := s - 0.30
  let new_v0 :=
    if s > 0.85 then v - 0.18
    else if 0.45 < s ∧ s ≤ 0.85 then v - 0.05
    else if 0.15 < s ∧ s ≤ 0.45 then v + 0.05
    else min 1 (v + (0.15 - new_s) * 1.8)
  let new_v := max 0 (min 1 new_v0)
  let rgb := hsv_to_rgb h new_s new_v
  if new_s < 0.01 then WHITE else ⟨rgb.1, rgb.2.1, rgb.2.2⟩

/-! ## Helper lemmas -/

set_option maxRecDepth 8000
set_option maxHeartbeats 1000000

theorem alookup_map_replace_ne {α : Type} (d : List (String × α)) (k k' : String) (v : α)
    (hkk : k ≠ k') :
    alookup k (d.map (fun p => if p.1 = k' then (k', v) else p)) = alookup k d := by
  induction d with
  | nil => rfl
  | cons a d ih =>
      by_cases ha : a.1 = k'
      · have hka : k ≠ a.1 := by rw [ha]; exact hkk
        simp [alookup, ha, hkk, hka, ih]
      · simp [alookup, ha, ih]

theorem alookup_map_replace_eq {α : Type} (d : List (String × α)) (k' : String) (v : α)
    (hc : d.any (fun p => p.1 = k') = true) :
    alookup k' (d.map (fun p => if p.1 = k' then (k', v) else p)) = some v := by
  induction d with
  | nil => simp at hc
  | cons a d ih =>
      by_cases ha : a.1 = k'
      · simp [alookup, ha]
      · have hc' : d.any (fun p => p.1 = k') = true := by
          simp only [List.any_cons, Bool.or_eq_true, decide_eq_true_eq] at hc
          rcases hc with h | h
          · exact absurd h ha
          · simpa using h
        have hk'a : k' ≠ a.1 := fun h => ha h.symm
        simp [alookup, ha, hk'a, ih hc']

theorem alookup_append_single {α : Type} (d : List (String × α)) (k k' : String) (v : α)
    (hc : d.any (fun p => p.1 = k') = false) :
    alookup k (d ++ [(k', v)]) = if k = k' then some v else alookup k d := by
  induction d with
  | nil => simp [alookup]
  | cons a d ih =>
      rw [List.any_cons, Bool.or_eq_false_iff] at hc
      have ha : a.1 ≠ k' := of_decide_eq_false hc.1
      by_cases hka : k = a.1
      · have hne : k ≠ k' := by rw [hka]; exact ha
        simp [alookup, hka, hne, ha]
      · simp [alookup, hka, ih hc.2]

theorem alookup_upsert {α : Type} (d : List (String × α)) (k k' : String) (v : α) :
    alookup k (upsert d k' v) = if k = k' then some v else alookup k d := by
  unfold upsert
  by_cases hc : d.any (fun p => p.1 = k') = true
  · rw [if_pos hc]
    by_cases hkk : k = k'
    · subst hkk
      rw [alookup_map_replace_eq d k v hc, if_pos rfl]
    · rw [alookup_map_replace_ne d k k' v hkk, if_neg hkk]
  · rw [if_neg hc]
    exact alookup_append_single d k k' v (eq_false_of_ne_true hc)

theorem alookup_indexAux (key_col : ℕ) (rows : List (List Value)) :
    ∀ (i : ℕ) (d : List (String × ℕ × List Value)) (k : String),
      alookup k (indexAux key_col i d rows) =
        ((lastKeyedRow key_col i rows k).rec (alookup k d) some) := by
  induction rows with
  | nil => intro i d k; rfl
  | cons row rest ih =>
      intro i d k
      show alookup k (indexAux key_col (i + 1) _ rest) = _
      rw [ih]
      cases hl : lastKeyedRow key_col (i + 1) rest k with
      | some e => simp [lastKeyedRow, hl]
      | none =>
          simp only [lastKeyedRow, hl]
          cases hr : rowKey key_col row with
          | none => simp [hr]
          | some kv =>
              rw [alookup_upsert]
              by_cases hk : k = kv
              · subst hk; simp [hr]
              · have : ¬ (some kv = some k) := by
                  intro h; exact hk (Option.some.inj h).symm
                simp [hr, hk, this]

theorem mem_insertSorted (x a : String) (l : List String) :
    a ∈ insertSorted x l ↔ a = x ∨ a ∈ l := by
  induction l with
  | nil => simp [insertSorted]
  | cons y ys ih =>
      by_cases h : x ≤ y
      · simp [insertSorted, h]
      · simp [insertSorted, h, ih]
        tauto

theorem mem_pySorted (a : String) (l : List String) : a ∈ pySorted l ↔ a ∈ l := by
  induction l with
  | nil => simp [pySorted]
  | cons x xs ih =>
      simp only [pySorted, List.foldr_cons] at *
      rw [mem_insertSorted, ih]
      simp

theorem flatMap_filter_of_false {α β : Type} (p : α → Bool) (f : α → List β)
    (l : List α) (h : ∀ e ∈ l, p e = false → f e = []) :
    (l.filter p).flatMap f = l.flatMap f := by
  induction l with
  | nil => rfl
  | cons a l ih =>
      have ih' := ih (fun e he hpe => h e (List.mem_cons_of_mem a he) hpe)
      by_cases hp : p a = true
      · simp [List.filter_cons, hp, ih']
      · have hpa : p a = false := eq_false_of_ne_true hp
        simp [List.filter_cons, hpa, h a (List.mem_cons_self a l) hpa, ih']

/-! ## Claim theorems -/

/-- Claim C7: when indexing a table by key, the entry recorded for a key is
exactly the last row carrying that trimmed key, both the 1-based row number
(i + 2 for 0-based data row i) and the row values, with no error; in
particular two rows sharing a key leave only the later row's entry. -/
theorem index_rows_last_wins :
    (∀ (rows : List (List Value)) (key_col : ℕ) (k : String),
      alookup k (index_rows rows key_col) =
        ((lastKeyedRow key_col 0 rows k).rec none some))
    ∧ index_rows [[Value.vStr "dup", Value.vStr "a"], [Value.vStr "dup", Value.vStr "b"]] 0
        = [("dup", 3, [Value.vStr "dup", Value.vStr "b"])] := by
  constructor
  · intro rows key_col k
    exact alookup_indexAux key_col rows 0 [] k
  · rfl

/-- Claim C1 counterexample: a target snapshot whose only cell is colored
(red, non-white), in an included column, with an empty difference set: the
audit returns the all-clear line and contains no false-positive finding for
that coordinate. -/
theorem check_color_status_no_false_positive_finding :
    check_color_status {} [some [none, some ⟨1, 0, 0⟩]] ["ID", "Value"] ["Value"]
        = [allClearLine]
    ∧ is_white (some ⟨1, 0, 0⟩) = false
    ∧ coloredCells [some [none, some ⟨1, 0, 0⟩]] (includedColIndices ["ID", "Value"] ["Value"])
        = [(1, 1)] := by
  decide!

/-- Claim C1 as amended: check_color_status never emits false-positive
findings (the false-positive pass was removed from the source): on every
run, each line of the returned report is either the all-clear line or a
missing-color finding for an actual difference record whose target cell is
not colored, so a non-white coordinate that is the coordinate of no
difference record never receives a finding; concretely, a nonempty
difference set on a white cell plus a stale colored cell in an included
column yields exactly the one missing-color line. -/
theorem check_color_status_only_missing_color :
    (∀ (result : CompareResult) (current_formats : List FormatRow)
        (t_h included_h : List String) (line : String),
      line ∈ check_color_status result current_formats t_h included_h →
      line = allClearLine ∨
        ∃ kd ∈ result.differences, ∃ dr ∈ kd.2,
          line = check_color_status.mkMissingLine dr ∧
          ((dr.t_row - 1 : ℕ), dr.t_col) ∉
            coloredCells current_formats (includedColIndices t_h included_h))
    ∧ check_color_status
        { differences := [("2", [⟨"Value", Value.vStr "a", Value.vStr "b", 3, 3, 1, 1⟩])] }
        [some [none, some ⟨1, 0, 0⟩], some [none, none]] ["ID", "Value"] ["Value"]
        = [check_color_status.mkMissingLine
            ⟨"Value", Value.vStr "a", Value.vStr "b", 3, 3, 1, 1⟩]
    ∧ is_white (some ⟨1, 0, 0⟩) = false := by
  refine ⟨?_, by decide!, by decide!⟩
  intro result current_formats t_h included_h line hline
  unfold check_color_status at hline
  dsimp only at hline
  split at hline
  · left
    simpa using hline
  · right
    rw [mem_pySorted] at hline
    rw [List.mem_flatMap] at hline
    obtain ⟨kd, hkd, hmem⟩ := hline
    rw [List.mem_filterMap] at hmem
    obtain ⟨dr, hdr, hsome⟩ := hmem
    split at hsome
    · exact absurd hsome (by simp)
    · rw [Option.some.injEq] at hsome
      exact ⟨kd, hkd, dr, hdr, hsome.symm, by assumption⟩

/-- Claim C1 amended, witness: the missing-color line of the stale-color
scenario is indeed classified as a finding for its difference record. -/
theorem check_color_status_only_missing_color_witness :
    check_color_status.mkMissingLine ⟨"Value", Value.vStr "a", Value.vStr "b", 3, 3, 1, 1⟩
        = allClearLine ∨
      ∃ kd ∈ ({ differences :=
          [("2", [⟨"Value", Value.vStr "a", Value.vStr "b", 3, 3, 1, 1⟩])] } :
            CompareResult).differences,
        ∃ dr ∈ kd.2,
          check_color_status.mkMissingLine ⟨"Value", Value.vStr "a", Value.vStr "b", 3, 3, 1, 1⟩
            = check_color_status.mkMissingLine dr ∧
          ((dr.t_row - 1 : ℕ), dr.t_col) ∉
            coloredCells [some [none, some ⟨1, 0, 0⟩], some [none, none]]
              (includedColIndices ["ID", "Value"] ["Value"]) :=
  check_color_status_only_missing_color.1
    { differences := [("2", [⟨"Value", Value.vStr "a", Value.vStr "b", 3, 3, 1, 1⟩])] }
    [some [none, some ⟨1, 0, 0⟩], some [none, none]] ["ID", "Value"] ["Value"]
    (check_color_status.mkMissingLine ⟨"Value", Value.vStr "a", Value.vStr "b", 3, 3, 1, 1⟩)
    (by decide!)

/-- Claim C2: compare_two_sheets fails with an invalid-input error exactly
when the key header is absent from the source headers or from the target
headers; otherwise it returns a complete CompareResult (no partial result
exists on the error path). -/
theorem compare_two_sheets_key_error (s_h : List String) (s_r : List (List Value))
    (t_h : List String) (t_r : List (List Value)) (key_h : String)
    (included_h : List String) :
    (isErr (compare_two_sheets s_h s_r t_h t_r key_h included_h) = true
      ↔ (key_h ∉ s_h ∨ key_h ∉ t_h))
    ∧ (isErr (compare_two_sheets s_h s_r t_h t_r key_h included_h) = false
      → compare_two_sheets s_h s_r t_h t_r key_h included_h
          = .ok (mkCompareResult s_h s_r t_h t_r key_h included_h)) := by
  unfold compare_two_sheets
  by_cases hs : key_h ∈ s_h
  · by_cases ht : key_h ∈ t_h
    · rw [if_pos hs, if_pos ht]
      constructor
      · constructor
        · intro h; exact absurd h (by simp [isErr])
        · intro h
          rcases h with h | h
          · exact absurd hs h
          · exact absurd ht h
      · intro _; rfl
    · rw [if_pos hs, if_neg ht]
      constructor
      · constructor
        · intro _; exact Or.inr ht
        · intro _; rfl
      · intro h; exact absurd h (by simp [isErr])
  · rw [if_neg hs]
    constructor
    · constructor
      · intro _; exact Or.inl hs
      · intro _; rfl
    · intro h; exact absurd h (by simp [isErr])

/-- Claim C2, witness: a missing key header errors; a present one succeeds. -/
theorem compare_two_sheets_key_error_witness :
    isErr (compare_two_sheets ["A"] [] ["B"] [] "K" []) = true
    ∧ isErr (compare_two_sheets ["K"] [] ["K"] [] "K" []) = false :=
  ⟨(compare_two_sheets_key_error ["A"] [] ["B"] [] "K" []).1.mpr
      (Or.inl (by decide)),
   by decide⟩

/-- Claim C6: the keys reported missing-in-target comparing (A source,
B target) are exactly the keys reported missing-in-source comparing
(B source, A target). -/
theorem compare_missing_rows_symmetric (a_h : List String) (a_r : List (List Value))
    (b_h : List String) (b_r : List (List Value)) (key_h : String)
    (included_h : List String) (ha : key_h ∈ a_h) (hb : key_h ∈ b_h) :
    (getRes (compare_two_sheets a_h a_r b_h b_r key_h included_h)).missing_rows_in_target
      = (getRes (compare_two_sheets b_h b_r a_h a_r key_h included_h)).missing_rows_in_source := by
  unfold compare_two_sheets
  rw [if_pos ha, if_pos hb, if_pos hb, if_pos ha]
  rfl

/-- Claim C6, witness. -/
theorem compare_missing_rows_symmetric_witness :
    (getRes (compare_two_sheets ["K"] [[Value.vStr "a"], [Value.vStr "b"]]
        ["K"] [[Value.vStr "b"], [Value.vStr "c"]] "K" [])).missing_rows_in_target
      = (getRes (compare_two_sheets ["K"] [[Value.vStr "b"], [Value.vStr "c"]]
        ["K"] [[Value.vStr "a"], [Value.vStr "b"]] "K" [])).missing_rows_in_source :=
  compare_missing_rows_symmetric ["K"] [[Value.vStr "a"], [Value.vStr "b"]]
    ["K"] [[Value.vStr "b"], [Value.vStr "c"]] "K" [] (by decide) (by decide)

/-- Claim C10: in the cross-table color audit, row-pairing entries whose
source or target data-row offset falls outside the corresponding format
snapshot are silently skipped: removing them from the pairing map leaves
the report unchanged, and a lone out-of-range entry yields no finding even
though its colors mismatch. -/
theorem compare_sheet_colors_skips_out_of_range :
    (∀ (result : CompareResult) (s_formats t_formats : List FormatRow)
        (s_h t_h included_h : List String),
      compare_sheet_colors
          { result with row_mapping := result.row_mapping.filter (fun e =>
              rowHasFormats e.2.1 s_formats.length && rowHasFormats e.2.2 t_formats.length) }
          s_formats t_formats s_h t_h included_h
        = compare_sheet_colors result s_formats t_formats s_h t_h included_h)
    ∧ compare_sheet_colors { row_mapping := [("k", 2, 99)] }
        [some [some ⟨1, 0, 0⟩]] [some [some ⟨0, 0, 1⟩]] ["A"] ["A"] ["A"] = []
    ∧ colors_match (some ⟨1, 0, 0⟩) (some ⟨0, 0, 1⟩) 0.03 = false := by
  refine ⟨?_, by decide!, by decide!⟩
  intro result s_formats t_formats s_h t_h included_h
  unfold compare_sheet_colors
  congr 1
  apply flatMap_filter_of_false
  intro e _ hpe
  rw [Bool.and_eq_false_iff] at hpe
  unfold entryFindings
  rcases hpe with hpe | hpe
  · rw [hpe]; rfl
  · rw [hpe]
    split <;> rfl

/-- Claim C5: a header not contained (after trimming of the allow-list
entries) in the included-headers list never appears as the column header of
any difference record of the returned CompareResult. -/
theorem excluded_header_never_differs (s_h : List String) (s_r : List (List Value))
    (t_h : List String) (t_r : List (List Value)) (key_h : String)
    (included_h : List String) (h : String) (hh : h ∉ included_h.map pyStrip)
    (k : String) (ds : List DiffRec) (dr : DiffRec)
    (hmem : (k, ds) ∈ (getRes (compare_two_sheets s_h s_r t_h t_r key_h included_h)).differences)
    (hdr : dr ∈ ds) : dr.header ≠ h := by
  unfold compare_two_sheets at hmem
  by_cases hs : key_h ∈ s_h
  · by_cases ht : key_h ∈ t_h
    · rw [if_pos hs, if_pos ht] at hmem
      unfold getRes mkCompareResult at hmem
      dsimp only at hmem
      rw [List.mem_filterMap] at hmem
      obtain ⟨k', _, hfk⟩ := hmem
      by_cases hds :
          diffsForKey s_h t_h
            ((firstDedup s_h).filter
              (fun x => x ∈ t_h ∧ x ≠ key_h ∧ x ∈ included_h.map pyStrip))
            (entryOf (index_rows s_r (dictIdx s_h key_h)) k').2
            (entryOf (index_rows t_r (dictIdx t_h key_h)) k').2
            (entryOf (index_rows s_r (dictIdx s_h key_h)) k').1
            (entryOf (index_rows t_r (dictIdx t_h key_h)) k').1 = []
      · rw [if_pos hds] at hfk
        exact absurd hfk (by simp)
      · rw [if_neg hds] at hfk
        rw [Option.some.injEq, Prod.mk.injEq] at hfk
        rw [← hfk.2] at hdr
        unfold diffsForKey at hdr
        rw [List.mem_filterMap] at hdr
        obtain ⟨h2, hmem2, hsome2⟩ := hdr
        rw [List.mem_filter] at hmem2
        have hin : h2 ∈ included_h.map pyStrip := by
          have := of_decide_eq_true hmem2.2
          exact this.2.2
        dsimp only at hsome2
        split at hsome2
        · rw [Option.some.injEq] at hsome2
          subst hsome2
          show h2 ≠ h
          intro hcontra
          rw [hcontra] at hin
          exact hh hin
        · exact absurd hsome2 (by simp)
    · rw [if_pos hs, if_neg ht] at hmem
      exact absurd hmem (by simp [getRes])
  · rw [if_neg hs] at hmem
    exact absurd hmem (by simp [getRes])

/-- Claim C5, witness: in the spec scenario the diff record on the
included column Value never carries the excluded header Ignored. -/
theorem excluded_header_never_differs_witness :
    ({ header := "Value", s_val := Value.vStr "Banana", t_val := Value.vStr "Cherry",
       s_row := 3, t_row := 3, s_col := 1, t_col := 1 } : DiffRec).header ≠ "Ignored" :=
  excluded_header_never_differs
    ["ID", "Value", "Ignored"]
    [[Value.vStr "1", Value.vStr "Apple", Value.vStr "X"],
     [Value.vStr "2", Value.vStr "Banana", Value.vStr "X"]]
    ["ID", "Value"]
    [[Value.vStr "1", Value.vStr "Apple"], [Value.vStr "2", Value.vStr "Cherry"]]
    "ID" ["Value"] "Ignored" (by decide) "2"
    [{ header := "Value", s_val := Value.vStr "Banana", t_val := Value.vStr "Cherry",
       s_row := 3, t_row := 3, s_col := 1, t_col := 1 }]
    { header := "Value", s_val := Value.vStr "Banana", t_val := Value.vStr "Cherry",
      s_row := 3, t_row := 3, s_col := 1, t_col := 1 }
    (by decide!) (by decide)

/-- Claim C3 counterexample: "25.12.2023" is a string of digits and dots,
yet normalize_cell does not parse it as a number: date detection captures
it first and returns the ISO date string. -/
theorem normalize_cell_numeric_counterexample :
    onlyDigitsCommaDot "25.12.2023" = true
    ∧ normalize_cell (Value.vStr "25.12.2023") = NormValue.nvStr "2023-12-25"
    ∧ (normalize_cell (Value.vStr "25.12.2023")).isNum = false := by
  decide!

/-- Claim C3 as amended: for a string of digits, commas and dots (after
currency and whitespace stripping) that does not match any date pattern and
whose separator-resolved form parses as a number, normalize_cell resolves
the rightmost of comma/dot as the decimal separator, strips the other,
parses, and rounds to 10 decimal places; the three concrete examples hold. -/
theorem normalize_cell_numbers :
    (∀ (s : String) (q : ℚ),
      tryDateFormats (pyStrip s) = none →
      onlyDigitsCommaDot (pyStrip (moneyStrip (pyStrip s))) = true →
      pyFloat? (sepResolve (pyStrip (moneyStrip (pyStrip s)))) = some q →
      normalize_cell (Value.vStr s) = NormValue.nvNum (pyRound10 q))
    ∧ normalize_cell (Value.vStr "1,234.50") = NormValue.nvNum 1234.5
    ∧ normalize_cell (Value.vStr " 123.45 ") = NormValue.nvNum 123.45
    ∧ normalize_cell (Value.vInt 10) = NormValue.nvNum 10 := by
  refine ⟨?_, by decide!, by decide!,
    by decide!⟩
  intro s q hdate hdcd hq
  have hse : pyStrip s ≠ "" := by
    intro hcontra
    rw [hcontra] at hdcd
    exact absurd hdcd (by decide)
  show (match dateIso? (Value.vStr s) with
    | some s' => NormValue.nvStr s'
    | none =>
        match toNumber? (Value.vStr s) with
        | some q' => NormValue.nvNum (pyRound10 q')
        | none => NormValue.nvStr (pyStrip (pyStr (Value.vStr s)))) = _
  have hd : dateIso? (Value.vStr s) = none := by
    show (if pyStrip (pyStr (Value.vStr s)) = ""
      then (if pyStr (Value.vStr s) = "" then none else some "")
      else (tryDateFormats (pyStrip (pyStr (Value.vStr s)))).map toIso) = none
    rw [show pyStr (Value.vStr s) = s from rfl, if_neg hse, hdate]
    rfl
  rw [hd]
  have hn : toNumber? (Value.vStr s) = some q := by
    show (if pyStrip s = "" then none
      else if onlyDigitsCommaDot (pyStrip (moneyStrip (pyStrip s)))
        then pyFloat? (sepResolve (pyStrip (moneyStrip (pyStrip s))))
        else pyFloat? (pyStrip (moneyStrip (pyStrip s)))) = some q
    rw [if_neg hse, if_pos hdcd, hq]
  rw [hn]

/-- Claim C3 amended, witness: a lone comma is the decimal separator. -/
theorem normalize_cell_numbers_witness :
    normalize_cell (Value.vStr "2,5") = NormValue.nvNum (pyRound10 (5/2)) :=
  normalize_cell_numbers.1 "2,5" (5/2) (by decide) (by decide)
    (by decide!)

/-- Claim C4: string date parsing tries the ordered pattern list
YYYY-MM-DD, DD.MM.YYYY, MM/DD/YYYY, DD/MM/YYYY, YYYY/MM/DD; the first
pattern that parses wins; a successful parse makes normalize_cell return
the ISO calendar-date string (so date detection precedes numeric
detection); the concrete examples hold, and 05/06/2023 resolves by the
MM/DD-before-DD/MM tie-break. -/
theorem normalize_cell_date_patterns :
    (∀ (s : String) (d : PyDate),
      tryDateFormats (pyStrip s) = some d →
        normalize_cell (Value.vStr s) = NormValue.nvStr (toIso d))
    ∧ (∀ s : String,
        tryDateFormats s = firstParse
          [parseDatePattern .ymd '-', parseDatePattern .dmy '.', parseDatePattern .mdy '/',
           parseDatePattern .dmy '/', parseDatePattern .ymd '/'] s)
    ∧ normalize_cell (Value.vStr "2023-12-25") = NormValue.nvStr "2023-12-25"
    ∧ normalize_cell (Value.vStr "25/12/2023") = NormValue.nvStr "2023-12-25"
    ∧ normalize_cell (Value.vStr "05/06/2023") = NormValue.nvStr "2023-05-06"
    ∧ onlyDigitsCommaDot "25.12.2023" = true
    ∧ normalize_cell (Value.vStr "25.12.2023") = NormValue.nvStr "2023-12-25" := by
  refine ⟨?_, fun _ => rfl, by decide, by decide, by decide, by decide, by decide⟩
  intro s d hd
  have hse : pyStrip s ≠ "" := by
    intro hcontra
    rw [hcontra] at hd
    have : tryDateFormats "" = none := rfl
    rw [this] at hd
    exact absurd hd (by simp)
  show (match dateIso? (Value.vStr s) with
    | some s' => NormValue.nvStr s'
    | none =>
        match toNumber? (Value.vStr s) with
        | some q' => NormValue.nvNum (pyRound10 q')
        | none => NormValue.nvStr (pyStrip (pyStr (Value.vStr s)))) = _
  have hdio : dateIso? (Value.vStr s) = some (toIso d) := by
    show (if pyStrip (pyStr (Value.vStr s)) = ""
      then (if pyStr (Value.vStr s) = "" then none else some "")
      else (tryDateFormats (pyStrip (pyStr (Value.vStr s)))).map toIso) = some (toIso d)
    rw [show pyStr (Value.vStr s) = s from rfl, if_neg hse, hd]
    rfl
  rw [hdio]

/-- Claim C4, witness: DD.MM.YYYY is the second pattern tried. -/
theorem normalize_cell_date_patterns_witness :
    normalize_cell (Value.vStr "31.01.2020") = NormValue.nvStr "2020-01-31" :=
  normalize_cell_date_patterns.1 "31.01.2020" ⟨2020, 1, 31⟩ (by decide)

theorem sat_nonneg (r g b : ℚ) : 0 ≤ (rgb_to_hsv r g b).2.1 := by
  unfold rgb_to_hsv
  dsimp only
  by_cases hm : 0 < max r (max g b)
  · rw [if_pos hm]
    apply div_nonneg _ (le_of_lt hm)
    have : min r (min g b) ≤ max r (max g b) :=
      le_trans (min_le_left _ _) (le_max_left _ _)
    linarith
  · rw [if_neg hm]

/-- Claim C8: the dimming transform agrees pointwise with the claimed
saturation-tiered rule (reduce saturation by 0.30; darken 0.18 above
s = 0.85, darken 0.05 on (0.45, 0.85], lighten 0.05 on (0.15, 0.45],
lighten by (0.15 - new s) * 1.8 capped at 1 at or below 0.15; clamp the
value; snap to white below saturation 0.01); a fully saturated pure color
(s = 1, v = 1) dims to s = 0.70, v = 0.82 and stays non-white; a near-gray
input with s = 0.05 snaps to pure white. -/
theorem dim_color_matches_spec :
    (∀ c : Color, dim_color c = dim_spec c)
    ∧ rgb_to_hsv 1 0 0 = (0, 1, 1)
    ∧ dim_color ⟨1, 0, 0⟩ = ⟨0.82, 0.246, 0.246⟩
    ∧ rgb_to_hsv 0.82 0.246 0.246 = (0, 0.7, 0.82)
    ∧ is_white (some (dim_color ⟨1, 0, 0⟩)) = false
    ∧ (rgb_to_hsv 1 0.95 0.95).2.1 = 0.05
    ∧ dim_color ⟨1, 0.95, 0.95⟩ = WHITE := by
  refine ⟨?_, by decide!, by decide!, by decide!, by decide!, by decide!, by decide!⟩
  intro c
  unfold dim_color dim_spec
  dsimp only
  set s := (rgb_to_hsv c.red c.green c.blue).2.1 with hsdef
  set v := (rgb_to_hsv c.red c.green c.blue).2.2 with hvdef
  have hs0 : 0 ≤ s := sat_nonneg c.red c.green c.blue
  by_cases hw : s - 0.30 < 0.01
  · have hmax : max 0 (s - 0.30) < 0.01 := max_lt (by norm_num) hw
    rw [if_pos hmax, if_pos hw]
  · have hge : (0.01 : ℚ) ≤ s - 0.30 := not_lt.1 hw
    have hmax : max 0 (s - 0.30) = s - 0.30 := max_eq_right (by linarith)
    rw [hmax, if_neg hw, if_neg hw]
    have htier :
        (if s > 0.85 then v - 0.18
          else if s > 0.45 then v - 0.05
          else if s > 0.15 then v + 0.05
          else min 1 (v + (0.15 - (s - 0.30)) * 1.8)) =
        (if s > 0.85 then v - 0.18
          else if 0.45 < s ∧ s ≤ 0.85 then v - 0.05
          else if 0.15 < s ∧ s ≤ 0.45 then v + 0.05
          else min 1 (v + (0.15 - (s - 0.30)) * 1.8)) := by
      by_cases h85 : s > 0.85
      · rw [if_pos h85, if_pos h85]
      · rw [if_neg h85, if_neg h85]
        by_cases h45 : s > 0.45
        · rw [if_pos h45, if_pos (show 0.45 < s ∧ s ≤ 0.85 from
            ⟨h45, by linarith [not_lt.1 h85]⟩)]
        · rw [if_neg h45, if_neg (show ¬ (0.45 < s ∧ s ≤ 0.85) from
            fun hc => h45 hc.1)]
          by_cases h15 : s > 0.15
          · rw [if_pos h15, if_pos (show 0.15 < s ∧ s ≤ 0.45 from
              ⟨h15, by linarith [not_lt.1 h45]⟩)]
          · rw [if_neg h15, if_neg (show ¬ (0.15 < s ∧ s ≤ 0.45) from
              fun hc => h15 hc.1)]
    rw [htier]

theorem pyInt_eq (q : ℚ) (k : ℤ) (hk : 0 ≤ k) (h1 : (k : ℚ) ≤ q) (h2 : q < k + 1) :
    pyInt q = k := by
  unfold pyInt
  have hq0 : 0 ≤ q := le_trans (by exact_mod_cast hk) h1
  rw [if_pos hq0]
  rw [Int.floor_eq_iff]
  constructor
  · exact h1
  · exact_mod_cast h2

theorem hsv_to_rgb_case0 (h s v : ℚ) (hs : s ≠ 0) (hk : pyInt (h / 60) = 0) :
    hsv_to_rgb h s v =
      (v, v * (1 - s * (1 - (h / 60 - ((0 : ℤ) : ℚ)))), v * (1 - s)) := by
  unfold hsv_to_rgb
  rw [if_neg hs]
  dsimp only
  rw [hk]
  norm_num

theorem hsv_to_rgb_case1 (h s v : ℚ) (hs : s ≠ 0) (hk : pyInt (h / 60) = 1) :
    hsv_to_rgb h s v =
      (v * (1 - s * (h / 60 - ((1 : ℤ) : ℚ))), v, v * (1 - s)) := by
  unfold hsv_to_rgb
  rw [if_neg hs]
  dsimp only
  rw [hk]
  norm_num

theorem hsv_to_rgb_case2 (h s v : ℚ) (hs : s ≠ 0) (hk : pyInt (h / 60) = 2) :
    hsv_to_rgb h s v =
      (v * (1 - s), v, v * (1 - s * (1 - (h / 60 - ((2 : ℤ) : ℚ))))) := by
  unfold hsv_to_rgb
  rw [if_neg hs]
  dsimp only
  rw [hk]
  norm_num

theorem hsv_to_rgb_case3 (h s v : ℚ) (hs : s ≠ 0) (hk : pyInt (h / 60) = 3) :
    hsv_to_rgb h s v =
      (v * (1 - s), v * (1 - s * (h / 60 - ((3 : ℤ) : ℚ))), v) := by
  unfold hsv_to_rgb
  rw [if_neg hs]
  dsimp only
  rw [hk]
  norm_num

theorem hsv_to_rgb_case4 (h s v : ℚ) (hs : s ≠ 0) (hk : pyInt (h / 60) = 4) :
    hsv_to_rgb h s v =
      (v * (1 - s * (1 - (h / 60 - ((4 : ℤ) : ℚ)))), v * (1 - s), v) := by
  unfold hsv_to_rgb
  rw [if_neg hs]
  dsimp only
  rw [hk]
  norm_num

theorem hsv_to_rgb_case5 (h s v : ℚ) (hs : s ≠ 0) (hk : pyInt (h / 60) = 5) :
    hsv_to_rgb h s v =
      (v, v * (1 - s), v * (1 - s * (h / 60 - ((5 : ℤ) : ℚ)))) := by
  unfold hsv_to_rgb
  rw [if_neg hs]
  dsimp only
  rw [hk]
  norm_num

theorem rgb_hsv_roundtrip (r g b : ℚ) (hr : 0 ≤ r) (hg : 0 ≤ g) (hb : 0 ≤ b) :
    hsv_to_rgb (rgb_to_hsv r g b).1 (rgb_to_hsv r g b).2.1 (rgb_to_hsv r g b).2.2
      = (r, g, b) := by
  unfold rgb_to_hsv
  dsimp only
  set M := max r (max g b) with hMdef
  set m := min r (min g b) with hmdef
  have hrM : r ≤ M := le_max_left _ _
  have hgM : g ≤ M := le_trans (le_max_left _ _) (le_max_right _ _)
  have hbM : b ≤ M := le_trans (le_max_right _ _) (le_max_right _ _)
  have hmr : m ≤ r := min_le_left _ _
  have hmg : m ≤ g := le_trans (min_le_right _ _) (min_le_left _ _)
  have hmb : m ≤ b := le_trans (min_le_right _ _) (min_le_right _ _)
  have hm0 : 0 ≤ m := le_min hr (le_min hg hb)
  have hMor : M = r ∨ M = g ∨ M = b := by
    rcases max_choice r (max g b) with h | h
    · exact Or.inl h
    · rcases max_choice g b with h2 | h2
      · exact Or.inr (Or.inl (by rw [hMdef, h, h2]))
      · exact Or.inr (Or.inr (by rw [hMdef, h, h2]))
  by_cases hd : 0 < M - m
  · have hM0 : 0 < M := lt_of_le_of_lt hm0 (by linarith)
    rw [if_pos hd, if_pos hM0]
    have hsne : (M - m) / M ≠ 0 := div_ne_zero (by linarith) (by linarith)
    have hMne : M ≠ 0 := by linarith
    have hdne : M - m ≠ 0 := by linarith
    by_cases hMr : M = r
    · rw [if_pos hMr]
      by_cases hgb : b ≤ g
      · -- max is r, min is b
        have hmb' : m = b := by
          rw [hmdef, min_eq_right hgb, min_eq_right (le_trans hbM (le_of_eq hMr))]
        have hnn : ¬ ((g - b) / (M - m) * 60 < 0) := by
          push_neg
          apply mul_nonneg (div_nonneg (by linarith) (by linarith)) (by norm_num)
        rw [if_neg hnn]
        have hq60 : (g - b) / (M - m) * 60 / 60 = (g - b) / (M - m) := by ring
        by_cases hgeq : g = M
        · -- ratio is exactly 1, integer part 1
          have hMbne : M - b ≠ 0 := by rw [hmb'] at hdne; exact hdne
          have hk : pyInt ((g - b) / (M - m) * 60 / 60) = 1 := by
            rw [hq60, hgeq, hmb', div_self hMbne]
            unfold pyInt
            rw [if_pos (by norm_num)]
            exact Int.floor_one
          rw [hsv_to_rgb_case1 _ _ _ hsne hk]
          have hrne : r ≠ 0 := by rw [hMr] at hMne; exact hMne
          have hrbne : r - b ≠ 0 := by rw [hMr] at hMbne; exact hMbne
          refine Prod.ext ?_ (Prod.ext ?_ ?_)
          · show M * (1 - (M - m) / M * ((g - b) / (M - m) * 60 / 60 - ((1 : ℤ) : ℚ))) = r
            rw [hq60, hgeq, hmb', hMr]
            push_cast
            field_simp
          · show M = g
            exact hgeq.symm
          · show M * (1 - (M - m) / M) = b
            rw [hmb', hMr]
            field_simp
        · -- ratio in [0, 1), integer part 0
          have hlt : (g - b) / (M - m) < 1 := by
            rw [div_lt_one hd]
            have : g < M := lt_of_le_of_ne hgM hgeq
            linarith [hmb']
          have hk : pyInt ((g - b) / (M - m) * 60 / 60) = 0 := by
            rw [hq60]
            apply pyInt_eq _ _ le_rfl
            · push_cast
              exact div_nonneg (by linarith) (by linarith)
            · push_cast
              linarith
          rw [hsv_to_rgb_case0 _ _ _ hsne hk]
          refine Prod.ext ?_ (Prod.ext ?_ ?_)
          · exact hMr
          · show M * (1 - (M - m) / M * (1 - ((g - b) / (M - m) * 60 / 60 - ((0 : ℤ) : ℚ)))) = g
            have hrne : r ≠ 0 := by rw [hMr] at hMne; exact hMne
            have hrbne : r - b ≠ 0 := by rw [hmb', hMr] at hdne; exact hdne
            rw [hq60, hmb', hMr]
            push_cast
            field_simp
            ring
          · show M * (1 - (M - m) / M) = b
            have hrne : r ≠ 0 := by rw [hMr] at hMne; exact hMne
            rw [hmb', hMr]
            field_simp
      · -- max is r, min is g, hue wraps into [300, 360)
        have hbg : g < b := not_le.1 hgb
        have hmg2 : m = g := by
          rw [hmdef, min_eq_left (le_of_lt hbg), min_eq_right (le_trans hgM (le_of_eq hMr))]
        have hneg : (g - b) / (M - m) * 60 < 0 :=
          mul_neg_of_neg_of_pos (div_neg_of_neg_of_pos (by linarith) hd) (by norm_num)
        rw [if_pos hneg]
        have hq60 : ((g - b) / (M - m) * 60 + 360) / 60 = (g - b) / (M - m) + 6 := by
          ring
        have hrat1 : (-1 : ℚ) ≤ (g - b) / (M - m) := by
          rw [le_div_iff₀ hd]
          have : b ≤ M := hbM
          linarith [hmg2]
        have hrat2 : (g - b) / (M - m) < 0 := div_neg_of_neg_of_pos (by linarith) hd
        have hk : pyInt (((g - b) / (M - m) * 60 + 360) / 60) = 5 := by
          rw [hq60]
          apply pyInt_eq _ _ (by norm_num)
          · push_cast
            linarith
          · push_cast
            linarith
        rw [hsv_to_rgb_case5 _ _ _ hsne hk]
        have hrne : r ≠ 0 := by rw [hMr] at hMne; exact hMne
        have hrgne : r - g ≠ 0 := by rw [hmg2, hMr] at hdne; exact hdne
        refine Prod.ext ?_ (Prod.ext ?_ ?_)
        · exact hMr
        · show M * (1 - (M - m) / M) = g
          rw [hmg2, hMr]
          field_simp
        · show M * (1 - (M - m) / M *
              (((g - b) / (M - m) * 60 + 360) / 60 - ((5 : ℤ) : ℚ))) = b
          rw [hmg2, hMr]
          push_cast
          field_simp
          ring
    · rw [if_neg hMr]
      have hrM2 : r < M := lt_of_le_of_ne hrM (fun he => hMr he.symm)
      by_cases hMg : M = g
      · rw [if_pos hMg]
        have hgne : g ≠ 0 := by rw [hMg] at hMne; exact hMne
        by_cases hrb : r ≤ b
        · -- max is g, min is r
          have hmr2 : m = r := by
            rw [hmdef, min_eq_right (le_trans hbM (le_of_eq hMg)), min_eq_left hrb]
          have hnn : ¬ ((2 + (b - r) / (M - m)) * 60 < 0) := by
            push_neg
            have : (0 : ℚ) ≤ (b - r) / (M - m) :=
              div_nonneg (by linarith) (le_of_lt hd)
            nlinarith
          rw [if_neg hnn]
          have hq60 : (2 + (b - r) / (M - m)) * 60 / 60 = (b - r) / (M - m) + 2 := by
            ring
          have hgrne : g - r ≠ 0 := by rw [hmr2, hMg] at hdne; exact hdne
          by_cases hbeq : b = M
          · -- ratio is exactly 1, integer part 3
            have hMrne2 : M - r ≠ 0 := by rw [hmr2] at hdne; exact hdne
            have hk : pyInt ((2 + (b - r) / (M - m)) * 60 / 60) = 3 := by
              rw [hq60, hbeq, hmr2, div_self hMrne2]
              unfold pyInt
              rw [if_pos (by norm_num)]
              norm_num
            rw [hsv_to_rgb_case3 _ _ _ hsne hk]
            refine Prod.ext ?_ (Prod.ext ?_ ?_)
            · show M * (1 - (M - m) / M) = r
              rw [hmr2, hMg]
              field_simp
            · show M * (1 - (M - m) / M *
                  ((2 + (b - r) / (M - m)) * 60 / 60 - ((3 : ℤ) : ℚ))) = g
              rw [hbeq, hmr2, hMg]
              push_cast
              field_simp
              ring
            · exact hbeq.symm
          · -- ratio in [0, 1), integer part 2
            have hbM2 : b < M := lt_of_le_of_ne hbM hbeq
            have hrat1 : (0 : ℚ) ≤ (b - r) / (M - m) :=
              div_nonneg (by linarith) (le_of_lt hd)
            have hrat2 : (b - r) / (M - m) < 1 := by
              rw [div_lt_one hd]
              linarith [hmr2]
            have hk : pyInt ((2 + (b - r) / (M - m)) * 60 / 60) = 2 := by
              rw [hq60]
              apply pyInt_eq _ _ (by norm_num)
              · push_cast
                linarith
              · push_cast
                linarith
            rw [hsv_to_rgb_case2 _ _ _ hsne hk]
            refine Prod.ext ?_ (Prod.ext ?_ ?_)
            · show M * (1 - (M - m) / M) = r
              rw [hmr2, hMg]
              field_simp
            · exact hMg
            · show M * (1 - (M - m) / M *
                  (1 - ((2 + (b - r) / (M - m)) * 60 / 60 - ((2 : ℤ) : ℚ)))) = b
              rw [hmr2, hMg]
              push_cast
              field_simp
              ring
        · -- max is g, min is b
          have hbr : b < r := not_le.1 hrb
          have hmb2 : m = b := by
            rw [hmdef, min_eq_right (le_trans hbM (le_of_eq hMg)),
              min_eq_right (le_of_lt hbr)]
          have hgbne : g - b ≠ 0 := by rw [hmb2, hMg] at hdne; exact hdne
          have hrat1 : (-1 : ℚ) ≤ (b - r) / (M - m) := by
            rw [le_div_iff₀ hd]
            linarith [hmb2, hrM2]
          have hrat2 : (b - r) / (M - m) < 0 := div_neg_of_neg_of_pos (by linarith) hd
          have hnn : ¬ ((2 + (b - r) / (M - m)) * 60 < 0) := by
            push_neg
            nlinarith
          rw [if_neg hnn]
          have hq60 : (2 + (b - r) / (M - m)) * 60 / 60 = (b - r) / (M - m) + 2 := by
            ring
          have hk : pyInt ((2 + (b - r) / (M - m)) * 60 / 60) = 1 := by
            rw [hq60]
            apply pyInt_eq _ _ (by norm_num)
            · push_cast
              linarith
            · push_cast
              linarith
          rw [hsv_to_rgb_case1 _ _ _ hsne hk]
          refine Prod.ext ?_ (Prod.ext ?_ ?_)
          · show M * (1 - (M - m) / M *
                ((2 + (b - r) / (M - m)) * 60 / 60 - ((1 : ℤ) : ℚ))) = r
            rw [hmb2, hMg]
            push_cast
            field_simp
            ring
          · exact hMg
          · show M * (1 - (M - m) / M) = b
            rw [hmb2, hMg]
            field_simp
      · -- max is b
        rw [if_neg hMg]
        have hMb : M = b := by
          rcases hMor with h | h | h
          · exact absurd h hMr
          · exact absurd h hMg
          · exact h
        have hgM2 : g < M := lt_of_le_of_ne hgM (fun he => hMg he.symm)
        have hbne : b ≠ 0 := by rw [hMb] at hMne; exact hMne
        by_cases hgr : g ≤ r
        · -- min is g, integer part 4
          have hmg2 : m = g := by
            rw [hmdef, min_eq_left (le_trans hgM (le_of_eq hMb)), min_eq_right hgr]
          have hbgne : b - g ≠ 0 := by rw [hmg2, hMb] at hdne; exact hdne
          have hrat1 : (0 : ℚ) ≤ (r - g) / (M - m) :=
            div_nonneg (by linarith) (le_of_lt hd)
          have hrat2 : (r - g) / (M - m) < 1 := by
            rw [div_lt_one hd]
            linarith [hmg2]
          have hnn : ¬ ((4 + (r - g) / (M - m)) * 60 < 0) := by
            push_neg
            nlinarith
          rw [if_neg hnn]
          have hq60 : (4 + (r - g) / (M - m)) * 60 / 60 = (r - g) / (M - m) + 4 := by
            ring
          have hk : pyInt ((4 + (r - g) / (M - m)) * 60 / 60) = 4 := by
            rw [hq60]
            apply pyInt_eq _ _ (by norm_num)
            · push_cast
              linarith
            · push_cast
              linarith
          rw [hsv_to_rgb_case4 _ _ _ hsne hk]
          refine Prod.ext ?_ (Prod.ext ?_ ?_)
          · show M * (1 - (M - m) / M *
                (1 - ((4 + (r - g) / (M - m)) * 60 / 60 - ((4 : ℤ) : ℚ)))) = r
            rw [hmg2, hMb]
            push_cast
            field_simp
            ring
          · show M * (1 - (M - m) / M) = g
            rw [hmg2, hMb]
            field_simp
          · exact hMb
        · -- min is r, integer part 3
          have hrg : r < g := not_le.1 hgr
          have hmr2 : m = r := by
            rw [hmdef, min_eq_left (le_trans hgM (le_of_eq hMb)),
              min_eq_left (le_of_lt hrg)]
          have hbrne : b - r ≠ 0 := by rw [hmr2, hMb] at hdne; exact hdne
          have hrat1 : (-1 : ℚ) ≤ (r - g) / (M - m) := by
            rw [le_div_iff₀ hd]
            linarith [hmr2, hgM2]
          have hrat2 : (r - g) / (M - m) < 0 := div_neg_of_neg_of_pos (by linarith) hd
          have hnn : ¬ ((4 + (r - g) / (M - m)) * 60 < 0) := by
            push_neg
            nlinarith
          rw [if_neg hnn]
          have hq60 : (4 + (r - g) / (M - m)) * 60 / 60 = (r - g) / (M - m) + 4 := by
            ring
          have hk : pyInt ((4 + (r - g) / (M - m)) * 60 / 60) = 3 := by
            rw [hq60]
            apply pyInt_eq _ _ (by norm_num)
            · push_cast
              linarith
            · push_cast
              linarith
          rw [hsv_to_rgb_case3 _ _ _ hsne hk]
          refine Prod.ext ?_ (Prod.ext ?_ ?_)
          · show M * (1 - (M - m) / M) = r
            rw [hmr2, hMb]
            field_simp
          · show M * (1 - (M - m) / M *
                ((4 + (r - g) / (M - m)) * 60 / 60 - ((3 : ℤ) : ℚ))) = g
            rw [hmr2, hMb]
            push_cast
            field_simp
            ring
          · exact hMb
  · -- degenerate: all channels equal
    have hMm : M = m := le_antisymm (by linarith) (le_trans hmr hrM)
    have hrv : r = M := le_antisymm hrM (by rw [hMm]; exact hmr)
    have hgv : g = M := le_antisymm hgM (by rw [hMm]; exact hmg)
    have hbv : b = M := le_antisymm hbM (by rw [hMm]; exact hmb)
    rw [if_neg hd]
    have hs : (if 0 < M then (M - m) / M else 0) = 0 := by
      split_ifs
      · rw [hMm, sub_self, zero_div]
      · rfl
    rw [hs]
    unfold hsv_to_rgb
    rw [if_pos rfl]
    rw [hrv, hgv, hbv]

/-- Claim C9: for every RGB triple with all three channels in [0, 1],
hsv_to_rgb applied to rgb_to_hsv reproduces the triple within 1e-6 per
channel (the round trip is exact over the rational model). -/
theorem rgb_hsv_roundtrip_within_tolerance (r g b : ℚ)
    (hr0 : 0 ≤ r) (hr1 : r ≤ 1) (hg0 : 0 ≤ g) (hg1 : g ≤ 1)
    (hb0 : 0 ≤ b) (hb1 : b ≤ 1) :
    |(hsv_to_rgb (rgb_to_hsv r g b).1 (rgb_to_hsv r g b).2.1
        (rgb_to_hsv r g b).2.2).1 - r| ≤ 1 / 1000000
    ∧ |(hsv_to_rgb (rgb_to_hsv r g b).1 (rgb_to_hsv r g b).2.1
        (rgb_to_hsv r g b).2.2).2.1 - g| ≤ 1 / 1000000
    ∧ |(hsv_to_rgb (rgb_to_hsv r g b).1 (rgb_to_hsv r g b).2.1
        (rgb_to_hsv r g b).2.2).2.2 - b| ≤ 1 / 1000000 := by
  rw [rgb_hsv_roundtrip r g b hr0 hg0 hb0]
  norm_num

/-- Claim C9, witness. -/
theorem rgb_hsv_roundtrip_within_tolerance_witness :
    |(hsv_to_rgb (rgb_to_hsv (1/2) (1/4) (3/4)).1 (rgb_to_hsv (1/2) (1/4) (3/4)).2.1
        (rgb_to_hsv (1/2) (1/4) (3/4)).2.2).1 - 1/2| ≤ 1 / 1000000
    ∧ |(hsv_to_rgb (rgb_to_hsv (1/2) (1/4) (3/4)).1 (rgb_to_hsv (1/2) (1/4) (3/4)).2.1
        (rgb_to_hsv (1/2) (1/4) (3/4)).2.2).2.1 - 1/4| ≤ 1 / 1000000
    ∧ |(hsv_to_rgb (rgb_to_hsv (1/2) (1/4) (3/4)).1 (rgb_to_hsv (1/2) (1/4) (3/4)).2.1
        (rgb_to_hsv (1/2) (1/4) (3/4)).2.2).2.2 - 3/4| ≤ 1 / 1000000 :=
  rgb_hsv_roundtrip_within_tolerance (1/2) (1/4) (3/4)
    (by norm_num) (by norm_num) (by norm_num) (by norm_num) (by norm_num) (by norm_num)
